import Mathlib

/-!
# EVENTS-SCANNER: verification of the event discovery / query / session code

Shallow embedding of `src/backend/app` (event_discovery.py, session_manager.py,
perplexity_client.py, api/api-events.py).  Python `datetime` values are modelled
as natural numbers counting minutes since 0001-01-01 00:00 (proleptic Gregorian
calendar, the same arithmetic `datetime`/`timedelta` implement); `timedelta(days=1)`
is 1440 minutes.  Database tables are lists of rows; SQLAlchemy's
`scalar_one_or_none` is modelled exactly (it raises on more than one row, which
the surrounding `except` blocks catch).  Float prices are modelled as integers
since no claim performs float arithmetic on them.
-/

namespace EventsScanner

/-! ## Calendar arithmetic (Python `datetime`) -/

def isLeapYear (y : Nat) : Bool :=
  (y % 4 == 0 && y % 100 != 0) || (y % 400 == 0)

def daysInMonth (y m : Nat) : Nat :=
  if m = 2 then (if isLeapYear y then 29 else 28)
  else if m = 4 ∨ m = 6 ∨ m = 9 ∨ m = 11 then 30
  else 31

/-- Days from 0001-01-01 to the first day of year `y` (proleptic Gregorian). -/
def daysBeforeYear (y : Nat) : Nat :=
  365 * (y - 1) + (y - 1) / 4 - (y - 1) / 100 + (y - 1) / 400

/-- Days from the first of January of year `y` to the first of month `m`. -/
def daysBeforeMonth (y m : Nat) : Nat :=
  ((List.range (m - 1)).map (fun i => daysInMonth y (i + 1))).sum

/-- Ordinal day number of the date `y-m-d` (0 for 0001-01-01). -/
def dayNumber (y m d : Nat) : Nat :=
  daysBeforeYear y + daysBeforeMonth y m + (d - 1)

/-- Timestamp (in minutes) of `datetime(y, m, d, hh, mi)`. -/
def ts (y m d hh mi : Nat) : Nat :=
  dayNumber y m d * 1440 + hh * 60 + mi

/-- `datetime(target_year, target_month, 1)` — start of the month. -/
def monthStart (y m : Nat) : Nat := ts y m 1 0 0

/-- Start of the month following month `m` of year `y`. -/
def nextMonthStart (y m : Nat) : Nat :=
  if m = 12 then monthStart (y + 1) 1 else monthStart y (m + 1)

/-- The `end_date` computed by the code:
`datetime(year, month+1, 1) - timedelta(days=1)` (month 12 wraps to January).
This is midnight at the START of the month's last day. -/
def monthEndCode (y m : Nat) : Nat := nextMonthStart y m - 1440

/-- A timestamp lies inside calendar month `m` of year `y`. -/
def inCalendarMonth (y m t : Nat) : Bool :=
  monthStart y m ≤ t && t < nextMonthStart y m

/-! ## Data model (`models.py`) -/

/-- Row of the `events` table. -/
structure Event where
  id : String
  title : String
  description : String
  date_time : Nat
  location : String
  source_url : String
  platform : String
  category : String
  ai_relevance_score : Int
  tags : List String
  organizer : String
  event_type : String
  price : Int
  created_at : Nat
  updated_at : Nat
  is_active : Bool
deriving Repr, DecidableEq

/-- Row of the `watched_events` table. -/
structure WatchedEvent where
  session_id : String
  event_id : String
  watched_at : Nat
  rating : Option Int
  notes : Option String
deriving Repr, DecidableEq

/-- A dynamically-typed JSON-ish preference value. -/
inductive PrefValue where
  | str (s : String)
  | int (n : Int)
  | bool (b : Bool)
  | strList (l : List String)
deriving Repr, DecidableEq

/-- A Python dict used as a preferences map: association list keyed by strings. -/
abbrev PrefMap := List (String × PrefValue)

/-- Row of the `user_sessions` table.  The `location` column receives whatever
dynamic value `preferences["location"]` holds, hence `PrefValue`. -/
structure UserSession where
  session_id : String
  created_at : Nat
  last_active : Nat
  preferences : PrefMap
  location : PrefValue
deriving Repr, DecidableEq

/-! ## Python dict / SQLAlchemy helpers -/

/-- `d.get(k)` on a Python dict modelled as an association list. -/
def dictGet (m : PrefMap) (k : String) : Option PrefValue :=
  (m.find? (fun p => p.1 == k)).map (·.2)

/-- `d[k] = v`: overwrite in place if the key exists, else append. -/
def dictSet (m : PrefMap) (k : String) (v : PrefValue) : PrefMap :=
  if m.any (fun p => p.1 == k) then
    m.map (fun p => if p.1 == k then (k, v) else p)
  else m ++ [(k, v)]

/-- `d.update(u)`: apply every key of `u` to `d` in order. -/
def dictUpdate (m u : PrefMap) : PrefMap :=
  u.foldl (fun acc kv => dictSet acc kv.1 kv.2) m

/-- SQLAlchemy `Result.scalar_one_or_none` on the rows matched by a query:
`none` for no row, the row if unique, and an exception (modelled as `.error`)
when several rows match. -/
def scalarOneOrNone {α : Type} (l : List α) : Except Unit (Option α) :=
  match l with
  | [] => .ok none
  | [x] => .ok (some x)
  | _ => .error ()

/-! ## Query service (`event_discovery.py`, `get_events_for_month`) -/

/-- `self.event_categories` in `EventDiscoveryEngine.__init__`. -/
def event_categories : List String :=
  ["Conference", "Workshop", "Networking", "Talk", "Hackathon", "Other"]

/-- `self.supported_platforms`. -/
def supported_platforms : List String := ["luma", "meetup"]

/-- Drop leading whitespace characters. -/
def dropLeadingWs : List Char → List Char
  | [] => []
  | c :: t => if c.isWhitespace then dropLeadingWs t else c :: t

/-- Python `str.strip()`: remove whitespace from both ends. -/
def pyStrip (s : String) : String :=
  ⟨(dropLeadingWs (dropLeadingWs s.data.reverse).reverse)⟩

/-- `needle` occurs as a contiguous run inside `hay`. -/
def listContainsSub (hay needle : List Char) : Bool :=
  match hay with
  | [] => needle.isEmpty
  | _ :: t => needle.isPrefixOf hay || listContainsSub t needle

/-- SQL `hay ILIKE '%pat%'`: case-insensitive substring containment. -/
def ilikeContains (hay pat : String) : Bool :=
  listContainsSub (hay.data.map Char.toLower) (pat.data.map Char.toLower)

/-- The `WHERE` clause of the base query in `get_events_for_month`
(lines 133-140): month window, relevance floor, active flag. -/
def baseWhere (start_date end_date : Nat) (min_relevance_score : Int) (e : Event) : Bool :=
  decide (start_date ≤ e.date_time) && decide (e.date_time ≤ end_date) &&
    decide (min_relevance_score ≤ e.ai_relevance_score) && e.is_active

/-- The optional location filter (line 143-144): Python `if location:` skips the
filter for `None` and for the empty string. -/
def locWhere (location : Option String) (e : Event) : Bool :=
  match location with
  | none => true
  | some l => if l = "" then true else ilikeContains e.location l

/-- The optional category filter (lines 146-147):
`if category and category in self.event_categories`. -/
def catWhere (category : Option String) (e : Event) : Bool :=
  match category with
  | none => true
  | some c => if c ≠ "" && event_categories.contains c then e.category == c else true

/-- `ORDER BY date_time ASC, ai_relevance_score DESC` as a relation. -/
def eventOrder (a b : Event) : Prop :=
  a.date_time < b.date_time ∨
    (a.date_time = b.date_time ∧ b.ai_relevance_score ≤ a.ai_relevance_score)

instance : DecidableRel eventOrder := fun a b => by
  unfold eventOrder; infer_instance

instance : IsTotal Event eventOrder := by
  constructor
  intro a b
  unfold eventOrder
  omega

instance : IsTrans Event eventOrder := by
  constructor
  intro a b c hab hbc
  unfold eventOrder at *
  omega

/-- The full `WHERE` clause of the query built at lines 133-147:
`start_date = datetime(target_year, target_month, 1)` and
`end_date = datetime(year, month+1, 1) - timedelta(days=1)`. -/
def queryWhere (location : Option String) (month year : Nat)
    (category : Option String) (min_relevance_score : Int) (e : Event) : Bool :=
  baseWhere (monthStart year month) (monthEndCode year month) min_relevance_score e &&
    locWhere location e && catWhere category e

/-- The rows produced by the SELECT of `get_events_for_month` (lines 133-153):
filtered by month window / score floor / active flag / optional filters, ordered
by `date_time` ascending with ties broken by `ai_relevance_score` descending. -/
def selectEvents (db : List Event) (location : Option String) (month year : Nat)
    (category : Option String) (min_relevance_score : Int) : List Event :=
  List.insertionSort eventOrder
    (db.filter (queryWhere location month year category min_relevance_score))

/-- The per-event dict built at lines 165-181. -/
structure FormattedEvent where
  id : String
  title : String
  description : String
  dateTime : Nat
  location : String
  sourceUrl : String
  platform : String
  category : String
  aiRelevanceScore : Int
  tags : List String
  organizer : String
  eventType : String
  price : Int
  isWatched : Bool
  createdAt : Nat
deriving Repr, DecidableEq

def formatEvent (watched_event_ids : List String) (e : Event) : FormattedEvent :=
  { id := e.id
    title := e.title
    description := e.description
    dateTime := e.date_time
    location := e.location
    sourceUrl := e.source_url
    platform := e.platform
    category := e.category
    aiRelevanceScore := e.ai_relevance_score
    tags := e.tags
    organizer := e.organizer
    eventType := e.event_type
    price := e.price
    isWatched := watched_event_ids.contains e.id
    createdAt := e.created_at }

/-- The response dict of `get_events_for_month` (lines 192-199). -/
structure MonthQueryResult where
  events : List FormattedEvent
  eventsByCategory : List (String × List FormattedEvent)
  totalEvents : Nat
  watchedCount : Nat
  month : Nat
  year : Nat
deriving Repr, DecidableEq

/-- The watched-id set of lines 156-160: event ids of the session's
`WatchedEvent` rows. -/
def watched_event_ids (watched : List WatchedEvent) (session_id : String) :
    List String :=
  (watched.filter (fun w => w.session_id == session_id)).map (·.event_id)

/-- The `formatted_events` list of lines 163-182. -/
def formatted_events (db : List Event) (watched : List WatchedEvent)
    (session_id : String) (location : Option String) (month year : Nat)
    (category : Option String) (min_relevance_score : Int) : List FormattedEvent :=
  (selectEvents db location month year category min_relevance_score).map
    (formatEvent (watched_event_ids watched session_id))

/-- `EventDiscoveryEngine.get_events_for_month` (lines 109-199), with the
database tables passed explicitly.  `month`/`year` are the resolved target
month/year (the handler always supplies them). -/
def get_events_for_month (db : List Event) (watched : List WatchedEvent)
    (session_id : String) (location : Option String) (month year : Nat)
    (category : Option String) (min_relevance_score : Int) : MonthQueryResult :=
  { events := formatted_events db watched session_id location month year category
      min_relevance_score
    eventsByCategory := event_categories.map (fun c =>
      (c, (formatted_events db watched session_id location month year category
            min_relevance_score).filter (fun fe => fe.category == c)))
    totalEvents := (formatted_events db watched session_id location month year
      category min_relevance_score).length
    watchedCount := ((formatted_events db watched session_id location month year
      category min_relevance_score).filter (·.isWatched)).length
    month := month
    year := year }

/-! ## Discovery pipeline (`event_discovery.py`, `_process_and_store_event`
and `discover_events`) -/

/-- A raw candidate dict returned by the external search; every field may be
missing.  `price` is modelled as an integer (see header). -/
structure RawEvent where
  title : Option String
  date_time : Option String
  date : Option String
  description : Option String
  location : Option String
  url : Option String
  category : Option String
  ai_relevance_score : Option Int
  tags : Option (List String)
  organizer : Option String
  event_type : Option String
  price : Option Int
deriving Repr, DecidableEq

/-- The summary dict returned for a newly created event (lines 267-273). -/
structure EventSummary where
  id : String
  title : String
  category : String
  aiRelevanceScore : Int
  dateTime : Nat
deriving Repr, DecidableEq

/-- `raw_event.get("date_time") or raw_event.get("date")` — Python `or` falls
through on `None` and on the empty string. -/
def getDateStr (r : RawEvent) : Option String :=
  match r.date_time with
  | some s => if s = "" then r.date else some s
  | none => r.date

/-- The existence-check predicate of lines 230-236:
`Event.title == title AND Event.date_time == event_date AND Event.platform == platform`. -/
def tripleWhere (title : String) (event_date : Nat) (platform : String) (e : Event) : Bool :=
  e.title == title && e.date_time == event_date && e.platform == platform

/-- The in-place mutation of the update branch (lines 240-244): refresh
`updated_at` and `ai_relevance_score`, leave every other column alone. -/
def updateExisting (raw : RawEvent) (now : Nat) (e : Event) : Event :=
  { e with updated_at := now,
           ai_relevance_score := raw.ai_relevance_score.getD e.ai_relevance_score }

/-- The update branch applied to the events table: the single row matched by
the triple query receives `updateExisting`, every other row is untouched. -/
def applyTripleUpdate (title : String) (d : Nat) (platform : String)
    (raw : RawEvent) (now : Nat) (l : List Event) : List Event :=
  l.map (fun e => if tripleWhere title d platform e then updateExisting raw now e else e)

/-- The `Event(...)` constructor call of lines 248-261. -/
def builtEvent (raw : RawEvent) (platform : String) (freshId : String)
    (now : Nat) (event_date : Nat) : Event :=
  { id := freshId
    title := pyStrip (raw.title.getD "")
    description := pyStrip (raw.description.getD "")
    date_time := event_date
    location := pyStrip (raw.location.getD "Online")
    source_url := if (pyStrip (raw.url.getD "")) = ""
      then "https://" ++ platform ++ ".com" else pyStrip (raw.url.getD "")
    platform := platform
    category := raw.category.getD "Other"
    ai_relevance_score := raw.ai_relevance_score.getD 5
    tags := raw.tags.getD []
    organizer := pyStrip (raw.organizer.getD "")
    event_type := raw.event_type.getD "unknown"
    price := raw.price.getD 0
    created_at := now
    updated_at := now
    is_active := true }

/-- The summary dict of lines 267-273 for a newly created event. -/
def builtSummary (raw : RawEvent) (freshId : String) (event_date : Nat) :
    EventSummary :=
  { id := freshId
    title := pyStrip (raw.title.getD "")
    category := raw.category.getD "Other"
    aiRelevanceScore := raw.ai_relevance_score.getD 5
    dateTime := event_date }

/-- `EventDiscoveryEngine._process_and_store_event` (lines 201-278).
`parseDate` models `dateutil.parser.parse` (an exception becomes `none`),
`now` models `datetime.utcnow()`, `freshId` the generated UUID primary key.
Returns the optional summary and the new `events` table.  The update branch
mutates the unique row found by `scalar_one_or_none`; since that query
guarantees exactly one matching row in that branch, it is written as a map
over the rows matching the triple.  When `scalar_one_or_none` raises
(several matching rows), the blanket `except` rolls back and returns `None`. -/
def process_and_store_event (parseDate : String → Option Nat) (now : Nat)
    (freshId : String) (db : List Event) (raw : RawEvent) (platform : String) :
    Option EventSummary × List Event :=
  let title := pyStrip (raw.title.getD "")
  if title = "" then (none, db)
  else
    match getDateStr raw with
    | none => (none, db)
    | some date_str =>
      if date_str = "" then (none, db)
      else
        match parseDate date_str with
        | none => (none, db)
        | some event_date =>
          match scalarOneOrNone (db.filter (tripleWhere title event_date platform)) with
          | .error _ => (none, db)
          | .ok (some _) =>
            (none, applyTripleUpdate title event_date platform raw now db)
          | .ok none =>
            (some (builtSummary raw freshId event_date),
             db ++ [builtEvent raw platform freshId now event_date])

/-- The per-candidate loop of `discover_events` (lines 74-84): process each raw
candidate in sequence, collecting the non-`None` summaries.  `ids`/`times`
supply the UUID and `utcnow()` value used at step `i`.  A per-candidate
exception is caught and the loop continues (`process_and_store_event` is total
here, so that branch never fires in the model). -/
def discoverLoop (parseDate : String → Option Nat) (ids : Nat → String)
    (times : Nat → Nat) (platform : String) :
    Nat → List RawEvent → List Event → List EventSummary × List Event
  | _, [], db => ([], db)
  | i, r :: rs, db =>
    match process_and_store_event parseDate (times i) (ids i) db r platform with
    | (some s, db') =>
      let rest := discoverLoop parseDate ids times platform (i + 1) rs db'
      (s :: rest.1, rest.2)
    | (none, db') => discoverLoop parseDate ids times platform (i + 1) rs db'

/-- `EventDiscoveryEngine.discover_events` (lines 25-107): platform validation,
then the per-candidate processing loop over the raw events returned by the
external search (`raw_events` is that list, supplied as an input).  The audit
`EventDiscoveryLog` row is not modelled (append-only, read by nothing here).
A bad platform raises `ValueError`, modelled as `.error`. -/
def discover_events (parseDate : String → Option Nat) (ids : Nat → String)
    (times : Nat → Nat) (db : List Event) (raw_events : List RawEvent)
    (platform : String) : Except Unit (List EventSummary × List Event) :=
  if supported_platforms.contains platform then
    .ok (discoverLoop parseDate ids times platform 0 raw_events db)
  else .error ()

/-! ## Watch toggles (`mark_event_watched`, `unmark_event_watched`) -/

/-- The `WHERE` of the watched-row lookup (lines 287-292 / 327-332). -/
def pairWhere (session_id event_id : String) (w : WatchedEvent) : Bool :=
  w.session_id == session_id && w.event_id == event_id

/-- `EventDiscoveryEngine.mark_event_watched` (lines 280-319): return `True`
without change when a row already exists, else insert one; an exception
(`scalar_one_or_none` on several rows) is caught and yields `False`. -/
def mark_event_watched (now : Nat) (ws : List WatchedEvent)
    (session_id event_id : String) : Bool × List WatchedEvent :=
  match scalarOneOrNone (ws.filter (pairWhere session_id event_id)) with
  | .error _ => (false, ws)
  | .ok (some _) => (true, ws)
  | .ok none =>
    (true, ws ++ [{ session_id := session_id, event_id := event_id,
                    watched_at := now, rating := none, notes := none }])

/-- `EventDiscoveryEngine.unmark_event_watched` (lines 321-351): delete the
found row if any; `True` either way; exception yields `False`. -/
def unmark_event_watched (ws : List WatchedEvent)
    (session_id event_id : String) : Bool × List WatchedEvent :=
  match scalarOneOrNone (ws.filter (pairWhere session_id event_id)) with
  | .error _ => (false, ws)
  | .ok (some w) => (true, ws.erase w)
  | .ok none => (true, ws)

/-- A toggle request as the HTTP surface issues it: `watch_status = true`
marks, `false` unmarks (api-events.py lines 158-196). -/
def applyToggle (now : Nat) (ws : List WatchedEvent)
    (t : Bool × String × String) : List WatchedEvent :=
  if t.1 then (mark_event_watched now ws t.2.1 t.2.2).2
  else (unmark_event_watched ws t.2.1 t.2.2).2

def applyToggles (now : Nat) (ts : List (Bool × String × String))
    (ws : List WatchedEvent) : List WatchedEvent :=
  ts.foldl (applyToggle now) ws

/-- The at-most-one-row-per-pair table invariant. -/
def watchInvariant (ws : List WatchedEvent) : Prop :=
  ∀ sid eid, (ws.filter (pairWhere sid eid)).length ≤ 1

/-! ## Session store (`session_manager.py`) -/

/-- `self.session_lifetime = timedelta(days=30)`, in minutes. -/
def session_lifetime : Nat := 30 * 1440

/-- `SessionManager.get_session` (lines 68-87): look the session up by primary
key, refresh `last_active` on hit, return the row.  Exceptions (several rows —
impossible for a primary key) are caught and yield `None` with no change. -/
def get_session (now : Nat) (sessions : List UserSession) (sid : String) :
    Option UserSession × List UserSession :=
  match scalarOneOrNone (sessions.filter (fun s => s.session_id == sid)) with
  | .error _ => (none, sessions)
  | .ok none => (none, sessions)
  | .ok (some s) =>
    (some s, sessions.map (fun t =>
      if t.session_id == sid then { t with last_active := now } else t))

/-- `SessionManager._cleanup_expired_session` (lines 242-258): delete the row
with the given id if present. -/
def cleanup_expired_session (sessions : List UserSession) (sid : String) :
    List UserSession :=
  match scalarOneOrNone (sessions.filter (fun s => s.session_id == sid)) with
  | .error _ => sessions
  | .ok none => sessions
  | .ok (some s) => sessions.erase s

/-- `SessionManager.is_valid_session` (lines 128-145): `False` for an empty id,
a missing session, or an expired one (`utcnow() > created_at + lifetime`,
where only `created_at` matters); expiry triggers lazy deletion. -/
def is_valid_session (now : Nat) (sessions : List UserSession) (sid : String) :
    Bool × List UserSession :=
  if sid = "" then (false, sessions)
  else
    match get_session now sessions sid with
    | (none, ss) => (false, ss)
    | (some s, ss) =>
      if s.created_at + session_lifetime < now then
        (false, cleanup_expired_session ss sid)
      else (true, ss)

/-- What one `update_session_preferences` call actually PERSISTS for the found
row (lines 104-114 plus the commit).  The code computes
`current_prefs = session.preferences or {}`, mutates it in place with
`dict.update`, and assigns the SAME object back to `session.preferences`.
`preferences` is a plain `Column(JSON)` (models.py line 39, no `MutableDict`),
so SQLAlchemy's change detection compares the assigned object against the
captured old value — the very same, already-mutated dict — sees no change, and
omits the `preferences` column from the UPDATE: the merged map is silently
dropped.  Only when the stored preferences are empty (falsy) does `or {}`
build a fresh dict, making the assignment a real change that persists.  The
`location` column (plain string assignment, line 110) and `last_active`
(explicit UPDATE statement in `_update_last_active`) always persist. -/
def mergedSession (now : Nat) (preferences : PrefMap) (s : UserSession) :
    UserSession :=
  { s with
    preferences := if s.preferences = [] then dictUpdate [] preferences
      else s.preferences
    location := match dictGet preferences "location" with
      | some v => v
      | none => s.location
    last_active := now }

/-- `SessionManager.update_session_preferences` (lines 89-126): find the
session; `False` with no change when missing; otherwise apply `mergedSession`
to the found row and return `True`. -/
def update_session_preferences (now : Nat) (sessions : List UserSession)
    (sid : String) (preferences : PrefMap) : Bool × List UserSession :=
  match scalarOneOrNone (sessions.filter (fun s => s.session_id == sid)) with
  | .error _ => (false, sessions)
  | .ok none => (false, sessions)
  | .ok (some _) =>
    (true, sessions.map (fun s =>
      if s.session_id == sid then mergedSession now preferences s else s))

/-! ## Classifier (`perplexity_client.py`, `classify_event`) -/

/-- The classification shape the prompt demands. -/
structure Classification where
  ai_relevance_score : Int
  category : String
  tags : List String
  event_type : String
  reasoning : String
deriving Repr, DecidableEq

/-- The fallback literal of lines 116-122. -/
def classification_fallback : Classification :=
  { ai_relevance_score := 5
    category := "Other"
    tags := []
    event_type := "unknown"
    reasoning := "Classification parsing failed" }

/-- `PerplexityClient.classify_event` (lines 63-126), for the case where the
HTTP round trip succeeds and yields `content`.  `parseJson` models
`json.loads` of the response body into the classification shape
(`JSONDecodeError` becomes `none`).  On a cache hit the cached entry is
returned; on a parse failure the fallback is returned (and not cached). -/
def classify_event (parseJson : String → Option Classification)
    (cache : List (String × Classification)) (cache_key : String)
    (content : String) : Classification × List (String × Classification) :=
  match cache.find? (fun p => p.1 == cache_key) with
  | some p => (p.2, cache)
  | none =>
    match parseJson content with
    | some classification => (classification, (cache_key, classification) :: cache)
    | none => (classification_fallback, cache)

/-! ## HTTP route `GET /api/events/events/{month}/{year}` (api-events.py 114-156) -/

/-- The body of the `try:` block: the two range validations raise
`HTTPException(400, msg)`; otherwise the service call runs (assumed to
succeed) and the handler would return the 200 payload. -/
def routeBody (month year : Int) : Except (Nat × String) Unit :=
  if ¬(1 ≤ month ∧ month ≤ 12) then
    .error (400, "Month must be between 1 and 12")
  else if year < 2024 ∨ 2030 < year then
    .error (400, "Year must be between 2024 and 2030")
  else .ok ()

/-- The whole handler: `except Exception as e:` catches every exception raised
inside the `try` — including the `HTTPException(400)` the validations raise,
since FastAPI's `HTTPException` subclasses `Exception` — and replaces it with
`HTTPException(500, "Failed to retrieve events")`. -/
def routeStatus (month year : Int) : Nat × String :=
  match routeBody month year with
  | .ok _ => (200, "")
  | .error _ => (500, "Failed to retrieve events")

/-! ## Sample data used by witnesses and counterexamples -/

/-- A well-formed stored event inside January 2025. -/
def sampleEvent : Event :=
  { id := "ev-1"
    title := "AI Conference Berlin"
    description := "annual gathering"
    date_time := ts 2025 1 10 9 0
    location := "Berlin"
    source_url := "https://luma.com"
    platform := "luma"
    category := "Conference"
    ai_relevance_score := 7
    tags := []
    organizer := "ACM"
    event_type := "in-person"
    price := 0
    created_at := ts 2025 1 1 0 0
    updated_at := ts 2025 1 1 0 0
    is_active := true }

/-- An event on the afternoon of the last day of January 2025. -/
def lastDayEvent : Event :=
  { sampleEvent with id := "ev-31", date_time := ts 2025 1 31 12 0 }

/-- An event whose stored category is outside the six fixed buckets. -/
def miscCategoryEvent : Event :=
  { sampleEvent with id := "ev-m", category := "Misc" }

/-! ## C4 -/

/-- C4: the claim says out-of-range month/year yields HTTP 400.  The code does
raise `HTTPException(400, ...)` for both validations, but those raises happen
inside the `try:` block whose `except Exception` clause catches every
exception — `HTTPException` included — and re-raises
`HTTPException(500, "Failed to retrieve events")`.  So the handler actually
responds 500 on out-of-range input: the validation intent (the constructed
400) is visibly contradicted by the blanket catch. -/
theorem C4_out_of_range_yields_500_not_400 :
    routeBody 13 2025 = .error (400, "Month must be between 1 and 12") ∧
    routeBody 7 2031 = .error (400, "Year must be between 2024 and 2030") ∧
    routeStatus 13 2025 = (500, "Failed to retrieve events") ∧
    routeStatus 7 2031 = (500, "Failed to retrieve events") ∧
    routeStatus 0 2025 = (500, "Failed to retrieve events") ∧
    routeStatus 7 2023 = (500, "Failed to retrieve events") := by
  refine ⟨rfl, rfl, rfl, rfl, rfl, rfl⟩

/-! ## C8 -/

/-- C8: when the classification response is fetched (cache miss) and its
content fails to parse as JSON, `classify_event` returns the fallback record
`{ai_relevance_score := 5, category := "Other", tags := [], event_type :=
"unknown"}` instead of raising, leaving the cache untouched. -/
theorem C8_parse_failure_returns_fallback
    (parseJson : String → Option Classification)
    (cache : List (String × Classification)) (cache_key content : String)
    (hmiss : cache.find? (fun p => p.1 == cache_key) = none)
    (hfail : parseJson content = none) :
    (classify_event parseJson cache cache_key content).1 = classification_fallback ∧
    (classify_event parseJson cache cache_key content).1.ai_relevance_score = 5 ∧
    (classify_event parseJson cache cache_key content).1.category = "Other" ∧
    (classify_event parseJson cache cache_key content).1.tags = [] ∧
    (classify_event parseJson cache cache_key content).1.event_type = "unknown" ∧
    (classify_event parseJson cache cache_key content).2 = cache := by
  simp [classify_event, hmiss, hfail, classification_fallback]

/-- C8 witness: a concrete unparseable response on an empty cache. -/
theorem C8_parse_failure_returns_fallback_witness :
    (classify_event (fun _ => none) [] "classify_42" "not json at all").1
      = classification_fallback ∧
    (classify_event (fun _ => none) [] "classify_42" "not json at all").1.ai_relevance_score = 5 ∧
    (classify_event (fun _ => none) [] "classify_42" "not json at all").1.category = "Other" ∧
    (classify_event (fun _ => none) [] "classify_42" "not json at all").1.tags = [] ∧
    (classify_event (fun _ => none) [] "classify_42" "not json at all").1.event_type = "unknown" ∧
    (classify_event (fun _ => none) [] "classify_42" "not json at all").2 = [] := by
  have h := C8_parse_failure_returns_fallback (fun _ => none) []
    "classify_42" "not json at all" rfl rfl
  exact h

/-! ## C10 -/

/-- C10: a category argument outside the six fixed names (including the empty
string) makes both conjuncts of `if category and category in
self.event_categories` fail, so the category filter is silently skipped and
the result is identical to the unfiltered query. -/
theorem C10_unknown_category_ignored (db : List Event) (watched : List WatchedEvent)
    (session_id : String) (location : Option String) (month year : Nat)
    (c : String) (min_relevance_score : Int)
    (hc : c ∉ event_categories) :
    get_events_for_month db watched session_id location month year (some c)
        min_relevance_score =
      get_events_for_month db watched session_id location month year none
        min_relevance_score := by
  have hcontains : event_categories.contains c = false := by
    simpa using hc
  have hcat : ∀ e : Event, catWhere (some c) e = catWhere none e := by
    intro e
    simp only [catWhere, hcontains, Bool.and_false, Bool.false_eq_true, if_false]
  have hsel : selectEvents db location month year (some c) min_relevance_score =
      selectEvents db location month year none min_relevance_score := by
    unfold selectEvents
    congr 1
    apply List.filter_congr
    intro e _
    unfold queryWhere
    rw [hcat]
  have hfmt : formatted_events db watched session_id location month year (some c)
      min_relevance_score =
      formatted_events db watched session_id location month year none
        min_relevance_score := by
    unfold formatted_events
    rw [hsel]
  unfold get_events_for_month
  rw [hfmt]

/-- C10 witness: the bogus category "Meetup" returns the same response as no
category at all on a concrete one-event store. -/
theorem C10_unknown_category_ignored_witness :
    get_events_for_month [sampleEvent] [] "s1" none 1 2025 (some "Meetup") 5 =
      get_events_for_month [sampleEvent] [] "s1" none 1 2025 none 5 := by
  exact C10_unknown_category_ignored [sampleEvent] [] "s1" none 1 2025 "Meetup" 5
    (by decide)

/-! ## C1 -/

/-- C1 counterexample: the claim reads the month window as "that calendar
month's boundaries inclusive", but the code's upper bound is
`datetime(year, month+1, 1) - timedelta(days=1)`, i.e. midnight at the START
of the month's last day.  An active, relevant event at 12:00 on 2025-01-31
falls inside calendar January yet is excluded from the January query. -/
theorem C1_last_day_afternoon_event_excluded :
    lastDayEvent.is_active = true ∧
    (5 : Int) ≤ lastDayEvent.ai_relevance_score ∧
    inCalendarMonth 2025 1 lastDayEvent.date_time = true ∧
    lastDayEvent ∈ ([lastDayEvent] : List Event) ∧
    lastDayEvent ∉ selectEvents [lastDayEvent] none 1 2025 none 5 := by
  refine ⟨by decide, by decide, by decide, by decide, by decide⟩

/-- C1 (amended): for every valid month/year and filters, the query returns
exactly the active stored events whose `date_time` lies between the first
instant of the month and midnight at the start of its LAST day (the code's end
boundary, first-of-next-month minus one day) — not the full calendar month —
whose score meets the floor, matching the optional case-insensitive location
substring and exact known-category filters, ordered by `date_time` ascending
with ties broken by `ai_relevance_score` descending. -/
theorem C1_month_query_characterization (db : List Event)
    (watched : List WatchedEvent) (session_id : String)
    (location : Option String) (month year : Nat) (category : Option String)
    (min_relevance_score : Int) (hm : 1 ≤ month ∧ month ≤ 12) :
    (∀ e : Event,
      e ∈ selectEvents db location month year category min_relevance_score ↔
        e ∈ db ∧ e.is_active = true ∧
        monthStart year month ≤ e.date_time ∧
        e.date_time ≤ monthEndCode year month ∧
        min_relevance_score ≤ e.ai_relevance_score ∧
        locWhere location e = true ∧ catWhere category e = true) ∧
    List.Sorted eventOrder
      (selectEvents db location month year category min_relevance_score) ∧
    (get_events_for_month db watched session_id location month year category
        min_relevance_score).events =
      (selectEvents db location month year category min_relevance_score).map
        (formatEvent (watched_event_ids watched session_id)) := by
  refine ⟨?_, ?_, rfl⟩
  · intro e
    unfold selectEvents
    rw [List.mem_insertionSort, List.mem_filter]
    unfold queryWhere baseWhere
    simp only [Bool.and_eq_true, decide_eq_true_eq]
    constructor
    · rintro ⟨hdb, ⟨⟨⟨⟨h1, h2⟩, h3⟩, h4⟩, h5⟩, h6⟩
      exact ⟨hdb, h4, h1, h2, h3, h5, h6⟩
    · rintro ⟨hdb, h4, h1, h2, h3, h5, h6⟩
      exact ⟨hdb, ⟨⟨⟨⟨h1, h2⟩, h3⟩, h4⟩, h5⟩, h6⟩
  · exact List.sorted_insertionSort eventOrder _

/-- C1 witness: the amended characterization instantiated on a concrete
two-event store for January 2025. -/
theorem C1_month_query_characterization_witness :
    (∀ e : Event,
      e ∈ selectEvents [sampleEvent, lastDayEvent] none 1 2025 none 5 ↔
        e ∈ [sampleEvent, lastDayEvent] ∧ e.is_active = true ∧
        monthStart 2025 1 ≤ e.date_time ∧
        e.date_time ≤ monthEndCode 2025 1 ∧
        (5 : Int) ≤ e.ai_relevance_score ∧
        locWhere none e = true ∧ catWhere none e = true) ∧
    List.Sorted eventOrder (selectEvents [sampleEvent, lastDayEvent] none 1 2025 none 5) ∧
    (get_events_for_month [sampleEvent, lastDayEvent] [] "s1" none 1 2025 none 5).events =
      (selectEvents [sampleEvent, lastDayEvent] none 1 2025 none 5).map
        (formatEvent (watched_event_ids [] "s1")) :=
  C1_month_query_characterization [sampleEvent, lastDayEvent] [] "s1" none 1 2025
    none 5 (by decide)

/-! ## C3 -/

lemma sum_if_beq_eq_one (cs : List String) (a : String) (hnd : cs.Nodup)
    (ha : a ∈ cs) :
    (cs.map (fun c => if a == c then 1 else 0)).sum = 1 := by
  induction cs with
  | nil => cases ha
  | cons c t ih =>
    rcases List.mem_cons.mp ha with rfl | hat
    · have hz : (t.map (fun c => if a == c then 1 else 0)).sum = 0 := by
        apply List.sum_eq_zero
        intro x hx
        rcases List.mem_map.mp hx with ⟨c', hc', rfl⟩
        have hne : a ≠ c' := by
          rintro rfl
          exact (List.nodup_cons.mp hnd).1 hc'
        simp [hne]
      rw [List.map_cons, List.sum_cons, if_pos (beq_self_eq_true a), hz]
    · have hne : a ≠ c := by
        rintro rfl
        exact (List.nodup_cons.mp hnd).1 hat
      rw [List.map_cons, List.sum_cons, if_neg (by simp [hne]),
        ih (List.nodup_cons.mp hnd).2 hat]

lemma filter_beq_singleton (cs : List String) (a : String) (hnd : cs.Nodup)
    (ha : a ∈ cs) :
    cs.filter (fun c => a == c) = [a] := by
  induction cs with
  | nil => cases ha
  | cons c t ih =>
    rcases List.mem_cons.mp ha with rfl | hat
    · have hz : t.filter (fun c => a == c) = [] := by
        apply List.filter_eq_nil_iff.mpr
        intro x hx
        have hne : a ≠ x := by
          rintro rfl
          exact (List.nodup_cons.mp hnd).1 hx
        simp [hne]
      simp [List.filter_cons, hz]
    · have hne : (a == c) = false := by
        have : a ≠ c := by
          rintro rfl
          exact (List.nodup_cons.mp hnd).1 hat
        simp [this]
      simp [List.filter_cons, hne, ih (List.nodup_cons.mp hnd).2 hat]

lemma bucket_length_sum (cs : List String) (hnd : cs.Nodup)
    (l : List FormattedEvent) (h : ∀ x ∈ l, x.category ∈ cs) :
    (cs.map (fun c => (l.filter (fun fe => fe.category == c)).length)).sum
      = l.length := by
  induction l with
  | nil => simp
  | cons x t ih =>
    have step : ∀ c : String,
        ((x :: t).filter (fun fe => fe.category == c)).length
          = (if x.category == c then 1 else 0)
            + (t.filter (fun fe => fe.category == c)).length := by
      intro c
      by_cases hcx : x.category = c
      · simp [List.filter_cons, hcx, Nat.add_comm]
      · simp [List.filter_cons, hcx]
    have hmapeq : cs.map (fun c => ((x :: t).filter (fun fe => fe.category == c)).length)
        = cs.map (fun c => (if x.category == c then 1 else 0)
            + (t.filter (fun fe => fe.category == c)).length) :=
      List.map_congr_left (fun c _ => step c)
    rw [hmapeq, List.sum_map_add,
      sum_if_beq_eq_one cs x.category hnd (h x (List.mem_cons_self x t)),
      ih (fun y hy => h y (List.mem_cons_of_mem x hy))]
    simp [Nat.add_comm]

lemma buckets_containing_eq (cs : List String) (hnd : cs.Nodup)
    (l : List FormattedEvent) (fe : FormattedEvent) (hfe : fe ∈ l)
    (hcat : fe.category ∈ cs) :
    ((cs.map (fun c => (c, l.filter (fun x => x.category == c)))).filter
        (fun p => p.2.contains fe)).map Prod.fst = [fe.category] := by
  rw [List.filter_map, List.map_map]
  have hq : ∀ c ∈ cs,
      ((fun p : String × List FormattedEvent => p.2.contains fe) ∘
        (fun c => (c, l.filter (fun x => x.category == c)))) c
        = (fe.category == c) := by
    intro c _
    simp only [Function.comp_apply]
    by_cases hc : fe.category = c
    · subst hc
      have hmem : fe ∈ l.filter (fun x => x.category == fe.category) :=
        List.mem_filter.mpr ⟨hfe, by simp⟩
      simp [List.elem_iff, hmem]
    · have hnot : fe ∉ l.filter (fun x => x.category == c) := by
        intro hmem
        exact hc (by simpa using (List.mem_filter.mp hmem).2)
      simp [List.elem_iff, hnot, hc]
  rw [List.filter_congr hq, filter_beq_singleton cs fe.category hnd hcat]
  simp

/-- C3 counterexample: a stored event whose category is outside the six fixed
names (nothing validates the classifier's category before it is stored, see
`category=raw_event.get("category", "Other")`) is returned in `events` and
counted in `totalEvents`, but lands in NO bucket of `eventsByCategory`: the
bucket sizes sum to 0 while `totalEvents` is 1, so the grouping does not
partition the returned list. -/
theorem C3_foreign_category_escapes_every_bucket :
    (get_events_for_month [miscCategoryEvent] [] "s1" none 1 2025 none 5).totalEvents
      = 1 ∧
    (get_events_for_month [miscCategoryEvent] [] "s1" none 1 2025 none 5).eventsByCategory
      = event_categories.map (fun c => (c, [])) ∧
    (((get_events_for_month [miscCategoryEvent] [] "s1" none 1 2025 none 5).eventsByCategory).map
        (fun p => p.2.length)).sum = 0 := by
  refine ⟨by decide, by decide, by decide⟩

/-- C3 (amended): provided every stored event carries one of the six fixed
category names — which the classifier contract promises but the code does not
enforce — the grouping partitions the returned list exactly: bucket sizes sum
to `totalEvents`, and each returned event lies in exactly one bucket, the one
labelled with its own category. -/
theorem C3_category_grouping_partitions (db : List Event)
    (watched : List WatchedEvent) (session_id : String)
    (location : Option String) (month year : Nat) (category : Option String)
    (min_relevance_score : Int)
    (h : ∀ e ∈ db, e.category ∈ event_categories) :
    (((get_events_for_month db watched session_id location month year category
          min_relevance_score).eventsByCategory).map (fun p => p.2.length)).sum
        = (get_events_for_month db watched session_id location month year category
            min_relevance_score).totalEvents ∧
    ∀ fe ∈ (get_events_for_month db watched session_id location month year category
        min_relevance_score).events,
      (((get_events_for_month db watched session_id location month year category
            min_relevance_score).eventsByCategory).filter
          (fun p => p.2.contains fe)).map Prod.fst = [fe.category] := by
  have hfmt : ∀ fe ∈ formatted_events db watched session_id location month year
      category min_relevance_score, fe.category ∈ event_categories := by
    intro fe hfe
    unfold formatted_events at hfe
    rcases List.mem_map.mp hfe with ⟨e, he, rfl⟩
    have hedb : e ∈ db := by
      unfold selectEvents at he
      rw [List.mem_insertionSort] at he
      exact (List.mem_filter.mp he).1
    exact h e hedb
  constructor
  · simp only [get_events_for_month, List.map_map]
    exact bucket_length_sum event_categories (by decide) _ hfmt
  · intro fe hfe
    simp only [get_events_for_month] at hfe ⊢
    exact buckets_containing_eq event_categories (by decide) _ fe hfe (hfmt fe hfe)

/-- C3 witness: the partition property on a concrete store whose single event
has a valid category. -/
theorem C3_category_grouping_partitions_witness :
    (((get_events_for_month [sampleEvent] [] "s1" none 1 2025 none 5).eventsByCategory).map
        (fun p => p.2.length)).sum
      = (get_events_for_month [sampleEvent] [] "s1" none 1 2025 none 5).totalEvents ∧
    ∀ fe ∈ (get_events_for_month [sampleEvent] [] "s1" none 1 2025 none 5).events,
      (((get_events_for_month [sampleEvent] [] "s1" none 1 2025 none 5).eventsByCategory).filter
          (fun p => p.2.contains fe)).map Prod.fst = [fe.category] :=
  C3_category_grouping_partitions [sampleEvent] [] "s1" none 1 2025 none 5
    (by decide)

/-! ## C2 -/

lemma process_reduces (parseDate : String → Option Nat) (now : Nat)
    (fid : String) (db : List Event) (raw : RawEvent) (platform : String)
    (ds : String) (d : Nat)
    (htitle : pyStrip (raw.title.getD "") ≠ "")
    (hds : getDateStr raw = some ds) (hds' : ds ≠ "")
    (hparse : parseDate ds = some d) :
    process_and_store_event parseDate now fid db raw platform
      = match scalarOneOrNone
          (db.filter (tripleWhere (pyStrip (raw.title.getD "")) d platform)) with
        | .error _ => (none, db)
        | .ok (some _) =>
          (none, applyTripleUpdate (pyStrip (raw.title.getD "")) d platform raw now db)
        | .ok none =>
          (some (builtSummary raw fid d),
           db ++ [builtEvent raw platform fid now d]) := by
  simp [process_and_store_event, htitle, hds, hds', hparse]

lemma tripleWhere_builtEvent (raw : RawEvent) (platform : String) (fid : String)
    (now d : Nat) :
    tripleWhere (pyStrip (raw.title.getD "")) d platform
      (builtEvent raw platform fid now d) = true := by
  simp [tripleWhere, builtEvent]

lemma filter_applyTripleUpdate (title : String) (d : Nat) (platform : String)
    (raw : RawEvent) (now : Nat) (l : List Event) :
    (applyTripleUpdate title d platform raw now l).filter
        (tripleWhere title d platform)
      = applyTripleUpdate title d platform raw now
          (l.filter (tripleWhere title d platform)) := by
  unfold applyTripleUpdate
  rw [List.filter_map]
  congr 1
  apply List.filter_congr
  intro e _
  simp only [Function.comp_apply]
  by_cases h : tripleWhere title d platform e = true
  · rw [if_pos h]
    rfl
  · rw [if_neg h]

lemma length_applyTripleUpdate (title : String) (d : Nat) (platform : String)
    (raw : RawEvent) (now : Nat) (l : List Event) :
    (applyTripleUpdate title d platform raw now l).length = l.length :=
  List.length_map l _

/-- C2: on a store holding at most one row for the candidate's
`(title, date_time, platform)` triple (the uniqueness invariant), processing a
valid candidate twice leaves exactly one row for that triple after each run;
the second run returns no summary, changes no row count, and only applies the
score/`updated_at` refresh to the rows matching the triple. -/
theorem C2_rediscovery_updates_instead_of_duplicating
    (parseDate : String → Option Nat) (now1 now2 : Nat) (id1 id2 : String)
    (db : List Event) (raw : RawEvent) (platform : String) (ds : String) (d : Nat)
    (htitle : pyStrip (raw.title.getD "") ≠ "")
    (hds : getDateStr raw = some ds) (hds' : ds ≠ "")
    (hparse : parseDate ds = some d)
    (huniq : (db.filter (tripleWhere (pyStrip (raw.title.getD "")) d platform)).length ≤ 1) :
    (((process_and_store_event parseDate now1 id1 db raw platform).2).filter
        (tripleWhere (pyStrip (raw.title.getD "")) d platform)).length = 1 ∧
    (((process_and_store_event parseDate now2 id2
          (process_and_store_event parseDate now1 id1 db raw platform).2 raw
          platform).2).filter
        (tripleWhere (pyStrip (raw.title.getD "")) d platform)).length = 1 ∧
    (process_and_store_event parseDate now2 id2
        (process_and_store_event parseDate now1 id1 db raw platform).2 raw
        platform).1 = none ∧
    (process_and_store_event parseDate now2 id2
        (process_and_store_event parseDate now1 id1 db raw platform).2 raw
        platform).2
      = applyTripleUpdate (pyStrip (raw.title.getD "")) d platform raw now2
          (process_and_store_event parseDate now1 id1 db raw platform).2 ∧
    (process_and_store_event parseDate now2 id2
        (process_and_store_event parseDate now1 id1 db raw platform).2 raw
        platform).2.length
      = (process_and_store_event parseDate now1 id1 db raw platform).2.length := by
  have hred1 := process_reduces parseDate now1 id1 db raw platform ds d htitle hds hds' hparse
  cases hfil : db.filter (tripleWhere (pyStrip (raw.title.getD "")) d platform) with
  | nil =>
    have h1 : process_and_store_event parseDate now1 id1 db raw platform
        = (some (builtSummary raw id1 d),
           db ++ [builtEvent raw platform id1 now1 d]) := by
      rw [hred1, hfil]
      rfl
    have hfil1 : (db ++ [builtEvent raw platform id1 now1 d]).filter
        (tripleWhere (pyStrip (raw.title.getD "")) d platform)
        = [builtEvent raw platform id1 now1 d] := by
      rw [List.filter_append, hfil, List.filter_cons,
        if_pos (tripleWhere_builtEvent raw platform id1 now1 d)]
      rfl
    have h2 : process_and_store_event parseDate now2 id2
        (db ++ [builtEvent raw platform id1 now1 d]) raw platform
        = (none, applyTripleUpdate (pyStrip (raw.title.getD "")) d platform raw
            now2 (db ++ [builtEvent raw platform id1 now1 d])) := by
      rw [process_reduces parseDate now2 id2 _ raw platform ds d htitle hds hds' hparse,
        hfil1]
      rfl
    refine ⟨?_, ?_, ?_, ?_, ?_⟩
    · rw [h1]
      show ((db ++ [builtEvent raw platform id1 now1 d]).filter
        (tripleWhere (pyStrip (raw.title.getD "")) d platform)).length = 1
      rw [hfil1]
      rfl
    · simp only [h1]
      simp only [h2]
      rw [filter_applyTripleUpdate, hfil1]
      rfl
    · simp only [h1]
      simp only [h2]
    · simp only [h1]
      simp only [h2]
    · simp only [h1]
      simp only [h2]
      rw [length_applyTripleUpdate]
  | cons x xs =>
    cases xs with
    | nil =>
      have hx : tripleWhere (pyStrip (raw.title.getD "")) d platform x = true := by
        have hmem : x ∈ db.filter (tripleWhere (pyStrip (raw.title.getD "")) d platform) := by
          rw [hfil]
          exact List.mem_singleton_self x
        exact (List.mem_filter.mp hmem).2
      have h1 : process_and_store_event parseDate now1 id1 db raw platform
          = (none, applyTripleUpdate (pyStrip (raw.title.getD "")) d platform raw
              now1 db) := by
        rw [hred1, hfil]
        rfl
      have hfil1 : (applyTripleUpdate (pyStrip (raw.title.getD "")) d platform raw
          now1 db).filter (tripleWhere (pyStrip (raw.title.getD "")) d platform)
          = [updateExisting raw now1 x] := by
        rw [filter_applyTripleUpdate, hfil]
        unfold applyTripleUpdate
        rw [List.map_cons, if_pos hx]
        rfl
      have h2 : process_and_store_event parseDate now2 id2
          (applyTripleUpdate (pyStrip (raw.title.getD "")) d platform raw now1 db)
          raw platform
          = (none, applyTripleUpdate (pyStrip (raw.title.getD "")) d platform raw
              now2 (applyTripleUpdate (pyStrip (raw.title.getD "")) d platform raw
                now1 db)) := by
        rw [process_reduces parseDate now2 id2 _ raw platform ds d htitle hds hds' hparse,
          hfil1]
        rfl
      refine ⟨?_, ?_, ?_, ?_, ?_⟩
      · rw [h1]
        show ((applyTripleUpdate (pyStrip (raw.title.getD "")) d platform raw now1
          db).filter (tripleWhere (pyStrip (raw.title.getD "")) d platform)).length = 1
        rw [hfil1]
        rfl
      · simp only [h1]
        simp only [h2]
        rw [filter_applyTripleUpdate, hfil1]
        rfl
      · simp only [h1]
        simp only [h2]
      · simp only [h1]
        simp only [h2]
      · simp only [h1]
        simp only [h2]
        rw [length_applyTripleUpdate]
    | cons y ys =>
      rw [hfil] at huniq
      simp at huniq

/-- A concrete stand-in for `dateutil.parser.parse`. -/
def sampleParseDate : String → Option Nat :=
  fun s => if s = "June 10 2025" then some (ts 2025 6 10 18 0) else none

/-- A concrete well-formed raw candidate. -/
def sampleRaw : RawEvent :=
  { title := some "AI Summit"
    date_time := some "June 10 2025"
    date := none
    description := some "a summit"
    location := some "San Francisco"
    url := none
    category := some "Conference"
    ai_relevance_score := some 8
    tags := some ["ai"]
    organizer := some "Org"
    event_type := some "in-person"
    price := none }

/-- C2 witness: processing the same concrete candidate twice starting from an
empty store leaves exactly one row for its triple, and the second run is a
pure score/timestamp refresh. -/
theorem C2_rediscovery_updates_instead_of_duplicating_witness :
    (((process_and_store_event sampleParseDate 10 "a" [] sampleRaw "luma").2).filter
        (tripleWhere (pyStrip (sampleRaw.title.getD "")) (ts 2025 6 10 18 0) "luma")).length = 1 ∧
    (((process_and_store_event sampleParseDate 20 "b"
          (process_and_store_event sampleParseDate 10 "a" [] sampleRaw "luma").2 sampleRaw
          "luma").2).filter
        (tripleWhere (pyStrip (sampleRaw.title.getD "")) (ts 2025 6 10 18 0) "luma")).length = 1 ∧
    (process_and_store_event sampleParseDate 20 "b"
        (process_and_store_event sampleParseDate 10 "a" [] sampleRaw "luma").2 sampleRaw
        "luma").1 = none ∧
    (process_and_store_event sampleParseDate 20 "b"
        (process_and_store_event sampleParseDate 10 "a" [] sampleRaw "luma").2 sampleRaw
        "luma").2
      = applyTripleUpdate (pyStrip (sampleRaw.title.getD "")) (ts 2025 6 10 18 0) "luma"
          sampleRaw 20
          (process_and_store_event sampleParseDate 10 "a" [] sampleRaw "luma").2 ∧
    (process_and_store_event sampleParseDate 20 "b"
        (process_and_store_event sampleParseDate 10 "a" [] sampleRaw "luma").2 sampleRaw
        "luma").2.length
      = (process_and_store_event sampleParseDate 10 "a" [] sampleRaw "luma").2.length :=
  C2_rediscovery_updates_instead_of_duplicating sampleParseDate 10 20 "a" "b" []
    sampleRaw "luma" "June 10 2025" (ts 2025 6 10 18 0)
    (by decide) (by decide) (by decide) (by decide) (by decide)

/-! ## C5 -/

/-- A stored event matching `sampleRaw`'s `(title, date_time, platform)` triple. -/
def existingSummitEvent : Event :=
  { id := "ev-s"
    title := "AI Summit"
    description := ""
    date_time := ts 2025 6 10 18 0
    location := "San Francisco"
    source_url := "https://luma.com"
    platform := "luma"
    category := "Conference"
    ai_relevance_score := 6
    tags := []
    organizer := "Org"
    event_type := "in-person"
    price := 0
    created_at := 5
    updated_at := 5
    is_active := true }

/-- C5 counterexample: the claim says a candidate matching an existing active
event "contributes a summary to the returned sequence, just as a newly
inserted one does".  In the code the update branch of
`_process_and_store_event` ends with `return None` (line 245), so the
candidate is filtered out of `processed_events`: running discovery with one
candidate that matches an existing active event refreshes that row's score and
`updated_at` but returns an EMPTY summary sequence. -/
theorem C5_updated_candidate_returns_no_summary :
    tripleWhere (pyStrip (sampleRaw.title.getD "")) (ts 2025 6 10 18 0) "luma"
      existingSummitEvent = true ∧
    existingSummitEvent.is_active = true ∧
    discover_events sampleParseDate (fun _ => "n1") (fun _ => 99)
        [existingSummitEvent] [sampleRaw] "luma"
      = .ok ([], [updateExisting sampleRaw 99 existingSummitEvent]) ∧
    (updateExisting sampleRaw 99 existingSummitEvent).ai_relevance_score = 8 ∧
    (updateExisting sampleRaw 99 existingSummitEvent).updated_at = 99 := by
  refine ⟨by decide, by decide, ?_, by decide, by decide⟩
  rfl

/-- `e\'` agrees with `e` on every column except possibly
`ai_relevance_score` and `updated_at` — the only two columns the upsert's
update branch may touch. -/
def refreshOnly (e' e : Event) : Prop :=
  e'.id = e.id ∧ e'.title = e.title ∧ e'.description = e.description ∧
  e'.date_time = e.date_time ∧ e'.location = e.location ∧
  e'.source_url = e.source_url ∧ e'.platform = e.platform ∧
  e'.category = e.category ∧ e'.tags = e.tags ∧ e'.organizer = e.organizer ∧
  e'.event_type = e.event_type ∧ e'.price = e.price ∧
  e'.created_at = e.created_at ∧ e'.is_active = e.is_active

lemma refreshOnly_refl (e : Event) : refreshOnly e e :=
  ⟨rfl, rfl, rfl, rfl, rfl, rfl, rfl, rfl, rfl, rfl, rfl, rfl, rfl, rfl⟩

lemma refreshOnly_trans {a b c : Event} (h1 : refreshOnly a b)
    (h2 : refreshOnly b c) : refreshOnly a c := by
  obtain ⟨a1, a2, a3, a4, a5, a6, a7, a8, a9, a10, a11, a12, a13, a14⟩ := h1
  obtain ⟨b1, b2, b3, b4, b5, b6, b7, b8, b9, b10, b11, b12, b13, b14⟩ := h2
  exact ⟨a1.trans b1, a2.trans b2, a3.trans b3, a4.trans b4, a5.trans b5,
    a6.trans b6, a7.trans b7, a8.trans b8, a9.trans b9, a10.trans b10,
    a11.trans b11, a12.trans b12, a13.trans b13, a14.trans b14⟩

lemma refreshOnly_updateExisting (raw : RawEvent) (now : Nat) (e : Event) :
    refreshOnly (updateExisting raw now e) e :=
  ⟨rfl, rfl, rfl, rfl, rfl, rfl, rfl, rfl, rfl, rfl, rfl, rfl, rfl, rfl⟩

lemma forall₂_map_refreshOnly (u : Event → Event)
    (hu : ∀ e, refreshOnly (u e) e) :
    ∀ l : List Event, List.Forall₂ refreshOnly (l.map u) l := by
  intro l
  induction l with
  | nil => exact List.Forall₂.nil
  | cons x t ih => exact List.Forall₂.cons (hu x) ih

lemma map_id_of_refreshOnly (u : Event → Event)
    (hu : ∀ e, refreshOnly (u e) e) (l : List Event) :
    (l.map u).map (·.id) = l.map (·.id) := by
  rw [List.map_map]
  apply List.map_congr_left
  intro e _
  exact (hu e).1

/-- Each processing step either refreshes rows in place (a pointwise map that
changes at most score/`updated_at`, returning no summary) or appends exactly
one new row whose id matches the returned summary. -/
lemma process_step_structure (parseDate : String → Option Nat) (now : Nat)
    (fid : String) (db : List Event) (raw : RawEvent) (platform : String) :
    (∃ u : Event → Event, (∀ e, refreshOnly (u e) e) ∧
      process_and_store_event parseDate now fid db raw platform
        = (none, db.map u)) ∨
    (∃ s ev, process_and_store_event parseDate now fid db raw platform
        = (some s, db ++ [ev]) ∧ ev.id = s.id) := by
  by_cases h1 : pyStrip (raw.title.getD "") = ""
  · refine .inl ⟨id, fun e => refreshOnly_refl e, ?_⟩
    rw [List.map_id]
    simp [process_and_store_event, h1]
  · cases hds : getDateStr raw with
    | none =>
      refine .inl ⟨id, fun e => refreshOnly_refl e, ?_⟩
      rw [List.map_id]
      simp [process_and_store_event, h1, hds]
    | some ds =>
      by_cases h2 : ds = ""
      · refine .inl ⟨id, fun e => refreshOnly_refl e, ?_⟩
        rw [List.map_id]
        simp [process_and_store_event, h1, hds, h2]
      · cases hp : parseDate ds with
        | none =>
          refine .inl ⟨id, fun e => refreshOnly_refl e, ?_⟩
          rw [List.map_id]
          simp [process_and_store_event, h1, hds, h2, hp]
        | some d =>
          have hred := process_reduces parseDate now fid db raw platform ds d h1 hds h2 hp
          cases hscal : scalarOneOrNone
              (db.filter (tripleWhere (pyStrip (raw.title.getD "")) d platform)) with
          | error u =>
            refine .inl ⟨id, fun e => refreshOnly_refl e, ?_⟩
            rw [List.map_id, hred, hscal]
          | ok o =>
            cases o with
            | some x =>
              refine .inl ⟨fun e =>
                if tripleWhere (pyStrip (raw.title.getD "")) d platform e
                then updateExisting raw now e else e, ?_, by rw [hred, hscal]; rfl⟩
              intro e
              show refreshOnly (if tripleWhere (pyStrip (raw.title.getD "")) d
                platform e then updateExisting raw now e else e) e
              by_cases he : tripleWhere (pyStrip (raw.title.getD "")) d platform e = true
              · rw [if_pos he]
                exact refreshOnly_updateExisting raw now e
              · rw [if_neg he]
                exact refreshOnly_refl e
            | none =>
              exact .inr ⟨builtSummary raw fid d,
                builtEvent raw platform fid now d, by rw [hred, hscal], rfl⟩

/-- The discovery loop's final table is the initial rows transformed by one
pointwise refresh-only map, followed by the newly inserted rows, whose ids are
the returned summaries' ids in order. -/
lemma discoverLoop_structure (parseDate : String → Option Nat)
    (ids : Nat → String) (times : Nat → Nat) (platform : String) :
    ∀ (rs : List RawEvent) (i : Nat) (db : List Event),
      ∃ (u : Event → Event) (newRows : List Event),
        (∀ e, refreshOnly (u e) e) ∧
        (discoverLoop parseDate ids times platform i rs db).2
          = db.map u ++ newRows ∧
        newRows.map (·.id)
          = (discoverLoop parseDate ids times platform i rs db).1.map (·.id) := by
  intro rs
  induction rs with
  | nil =>
    intro i db
    refine ⟨id, [], fun e => refreshOnly_refl e, ?_, rfl⟩
    simp [discoverLoop]
  | cons r rs ih =>
    intro i db
    have hcons : discoverLoop parseDate ids times platform i (r :: rs) db
        = (match process_and_store_event parseDate (times i) (ids i) db r platform with
           | (some s, db') =>
             ((s :: (discoverLoop parseDate ids times platform (i + 1) rs db').1),
              (discoverLoop parseDate ids times platform (i + 1) rs db').2)
           | (none, db') => discoverLoop parseDate ids times platform (i + 1) rs db') := rfl
    rcases process_step_structure parseDate (times i) (ids i) db r platform with
      ⟨u0, hu0, heq⟩ | ⟨s, ev, heq, hid⟩
    · have hstep : discoverLoop parseDate ids times platform i (r :: rs) db
          = discoverLoop parseDate ids times platform (i + 1) rs (db.map u0) := by
        rw [hcons, heq]
      obtain ⟨u1, newRows, hu1, hstruct, hids⟩ := ih (i + 1) (db.map u0)
      refine ⟨u1 ∘ u0, newRows, ?_, ?_, ?_⟩
      · intro e
        exact refreshOnly_trans (hu1 (u0 e)) (hu0 e)
      · rw [hstep, hstruct, List.map_map]
      · rw [hstep]
        exact hids
    · have hstep : discoverLoop parseDate ids times platform i (r :: rs) db
          = ((s :: (discoverLoop parseDate ids times platform (i + 1) rs
                (db ++ [ev])).1),
             (discoverLoop parseDate ids times platform (i + 1) rs
                (db ++ [ev])).2) := by
        rw [hcons, heq]
      obtain ⟨u1, newRows, hu1, hstruct, hids⟩ := ih (i + 1) (db ++ [ev])
      refine ⟨u1, u1 ev :: newRows, hu1, ?_, ?_⟩
      · rw [hstep]
        show (discoverLoop parseDate ids times platform (i + 1) rs (db ++ [ev])).2
          = db.map u1 ++ (u1 ev :: newRows)
        rw [hstruct, List.map_append, List.append_assoc]
        rfl
      · rw [hstep]
        show (u1 ev :: newRows).map (·.id)
          = (s :: (discoverLoop parseDate ids times platform (i + 1) rs
              (db ++ [ev])).1).map (·.id)
        rw [List.map_cons, List.map_cons, hids]
        have : (u1 ev).id = s.id := ((hu1 ev).1).trans hid
        rw [this]

/-- C5 (amended): on a successful run `discover_events` returns one summary
per NEWLY INSERTED event row and none for candidates that merely refreshed an
existing row: the final table is the initial rows in their original
positions — every column preserved except possibly `ai_relevance_score` and
`updated_at`, ids unchanged — followed by exactly the inserted rows, whose ids
match the returned summaries one-to-one, in order. -/
theorem C5_summaries_are_exactly_new_rows (parseDate : String → Option Nat)
    (ids : Nat → String) (times : Nat → Nat) (db : List Event)
    (raw_events : List RawEvent) (platform : String)
    (hp : platform ∈ supported_platforms) :
    ∃ summaries dbOut,
      discover_events parseDate ids times db raw_events platform
        = .ok (summaries, dbOut) ∧
      dbOut.length = db.length + summaries.length ∧
      List.Forall₂ refreshOnly (dbOut.take db.length) db ∧
      (dbOut.take db.length).map (·.id) = db.map (·.id) ∧
      (dbOut.drop db.length).map (·.id) = summaries.map (·.id) := by
  have hc : supported_platforms.contains platform = true := by
    simpa using hp
  obtain ⟨u, newRows, hu, hstruct, hids⟩ :=
    discoverLoop_structure parseDate ids times platform raw_events 0 db
  have hmaplen : db.length = (db.map u).length := (List.length_map db u).symm
  have htake : ((db.map u ++ newRows).take db.length) = db.map u := by
    rw [hmaplen, List.take_left]
  have hdrop : ((db.map u ++ newRows).drop db.length) = newRows := by
    rw [hmaplen, List.drop_left]
  refine ⟨(discoverLoop parseDate ids times platform 0 raw_events db).1,
    (discoverLoop parseDate ids times platform 0 raw_events db).2,
    ?_, ?_, ?_, ?_, ?_⟩
  · unfold discover_events
    rw [if_pos hc]
  · have hlen := congrArg List.length hids
    simp only [List.length_map] at hlen
    rw [hstruct, List.length_append, List.length_map, hlen]
  · rw [hstruct, htake]
    exact forall₂_map_refreshOnly u hu db
  · rw [hstruct, htake]
    exact map_id_of_refreshOnly u hu db
  · rw [hstruct, hdrop, hids]

/-- C5 witness: a concrete run with one matching and one fresh candidate:
the matching one updates in place (prefix preserved up to score/timestamp,
id unchanged), the fresh one appends one row whose id matches the single
returned summary. -/
theorem C5_summaries_are_exactly_new_rows_witness :
    ∃ summaries dbOut,
      discover_events sampleParseDate (fun i => if i = 0 then "n1" else "n2")
          (fun _ => 99) [existingSummitEvent] [sampleRaw] "luma"
        = .ok (summaries, dbOut) ∧
      dbOut.length = [existingSummitEvent].length + summaries.length ∧
      List.Forall₂ refreshOnly (dbOut.take [existingSummitEvent].length)
        [existingSummitEvent] ∧
      (dbOut.take [existingSummitEvent].length).map (·.id)
        = [existingSummitEvent].map (·.id) ∧
      (dbOut.drop [existingSummitEvent].length).map (·.id)
        = summaries.map (·.id) :=
  C5_summaries_are_exactly_new_rows sampleParseDate
    (fun i => if i = 0 then "n1" else "n2") (fun _ => 99) [existingSummitEvent]
    [sampleRaw] "luma" (by decide)

/-! ## C6 -/

lemma mark_shape (now : Nat) (ws : List WatchedEvent) (sid eid : String) :
    (ws.filter (pairWhere sid eid) = [] ∧
      mark_event_watched now ws sid eid
        = (true, ws ++ [⟨sid, eid, now, none, none⟩])) ∨
    mark_event_watched now ws sid eid = (true, ws) ∨
    mark_event_watched now ws sid eid = (false, ws) := by
  unfold mark_event_watched
  cases hfil : ws.filter (pairWhere sid eid) with
  | nil => exact .inl ⟨rfl, rfl⟩
  | cons x xs =>
    cases xs with
    | nil => exact .inr (.inl rfl)
    | cons y ys => exact .inr (.inr rfl)

lemma unmark_shape (ws : List WatchedEvent) (sid eid : String) :
    unmark_event_watched ws sid eid = (true, ws) ∨
    (∃ w, unmark_event_watched ws sid eid = (true, ws.erase w)) ∨
    unmark_event_watched ws sid eid = (false, ws) := by
  unfold unmark_event_watched
  cases hfil : ws.filter (pairWhere sid eid) with
  | nil => exact .inl rfl
  | cons x xs =>
    cases xs with
    | nil => exact .inr (.inl ⟨x, rfl⟩)
    | cons y ys => exact .inr (.inr rfl)

lemma insert_preserves_invariant (now : Nat) (ws : List WatchedEvent)
    (sid eid : String) (h : watchInvariant ws)
    (hfil : ws.filter (pairWhere sid eid) = []) :
    watchInvariant (ws ++ [⟨sid, eid, now, none, none⟩]) := by
  intro s e
  rw [List.filter_append]
  by_cases hpe : pairWhere s e (⟨sid, eid, now, none, none⟩ : WatchedEvent) = true
  · have hs : sid = s ∧ eid = e := by
      simpa [pairWhere] using hpe
    rcases hs with ⟨rfl, rfl⟩
    rw [hfil]
    simp [List.filter_cons, hpe]
  · have hz : ([(⟨sid, eid, now, none, none⟩ : WatchedEvent)].filter
        (pairWhere s e)) = [] := by
      simp [List.filter_cons, hpe]
    rw [hz, List.append_nil]
    exact h s e

lemma erase_preserves_invariant (ws : List WatchedEvent) (w : WatchedEvent)
    (h : watchInvariant ws) : watchInvariant (ws.erase w) := by
  intro s e
  have hsub : List.Sublist ((ws.erase w).filter (pairWhere s e))
      (ws.filter (pairWhere s e)) :=
    (List.erase_sublist w ws).filter _
  exact le_trans hsub.length_le (h s e)

lemma mark_preserves_invariant (now : Nat) (ws : List WatchedEvent)
    (sid eid : String) (h : watchInvariant ws) :
    watchInvariant (mark_event_watched now ws sid eid).2 := by
  rcases mark_shape now ws sid eid with ⟨hfil, heq⟩ | heq | heq <;> rw [heq]
  · exact insert_preserves_invariant now ws sid eid h hfil
  · exact h
  · exact h

lemma unmark_preserves_invariant (ws : List WatchedEvent) (sid eid : String)
    (h : watchInvariant ws) :
    watchInvariant (unmark_event_watched ws sid eid).2 := by
  rcases unmark_shape ws sid eid with heq | ⟨w, heq⟩ | heq <;> rw [heq]
  · exact h
  · exact erase_preserves_invariant ws w h
  · exact h

lemma applyToggles_preserve_invariant (now : Nat)
    (ops : List (Bool × String × String)) :
    ∀ ws : List WatchedEvent, watchInvariant ws →
      watchInvariant (applyToggles now ops ws) := by
  induction ops with
  | nil => intro ws h; exact h
  | cons t ops ih =>
    intro ws h
    have hstep : watchInvariant (applyToggle now ws t) := by
      unfold applyToggle
      by_cases ht : t.1 = true
      · rw [if_pos ht]
        exact mark_preserves_invariant now ws t.2.1 t.2.2 h
      · rw [if_neg ht]
        exact unmark_preserves_invariant ws t.2.1 t.2.2 h
    exact ih (applyToggle now ws t) hstep

/-- C6: the watch toggle is idempotent and preserves the one-row-per-pair
invariant: marking an already-watched `(session_id, event_id)` pair returns
`True` with the table unchanged, unmarking a non-watched pair returns `True`
with the table unchanged, and any sequence of toggles keeps at most one
`WatchedEvent` row per pair. -/
theorem C6_watch_toggle_idempotent (now : Nat) (ws : List WatchedEvent)
    (sid eid : String) (ops : List (Bool × String × String))
    (hinv : watchInvariant ws) :
    ((∃ w ∈ ws, pairWhere sid eid w = true) →
      mark_event_watched now ws sid eid = (true, ws)) ∧
    (ws.filter (pairWhere sid eid) = [] →
      unmark_event_watched ws sid eid = (true, ws)) ∧
    watchInvariant (applyToggles now ops ws) := by
  refine ⟨?_, ?_, applyToggles_preserve_invariant now ops ws hinv⟩
  · rintro ⟨w, hw, hpw⟩
    have hmem : w ∈ ws.filter (pairWhere sid eid) := List.mem_filter.mpr ⟨hw, hpw⟩
    unfold mark_event_watched
    cases hfil : ws.filter (pairWhere sid eid) with
    | nil =>
      rw [hfil] at hmem
      cases hmem
    | cons x xs =>
      cases xs with
      | nil => rfl
      | cons y ys =>
        exfalso
        have hle := hinv sid eid
        rw [hfil] at hle
        simp at hle
  · intro hfil
    unfold unmark_event_watched
    rw [hfil]
    rfl

/-- A one-row table trivially satisfies the invariant. -/
lemma watchInvariant_singleton (w : WatchedEvent) : watchInvariant [w] := by
  intro s e
  have hle := List.length_filter_le (pairWhere s e) [w]
  simpa using hle

/-- C6 witness: a concrete already-watched pair and a concrete toggle
sequence on a one-row table. -/
theorem C6_watch_toggle_idempotent_witness :
    ((∃ w ∈ [(⟨"s1", "e1", 5, none, none⟩ : WatchedEvent)],
        pairWhere "s1" "e1" w = true) →
      mark_event_watched 7 [(⟨"s1", "e1", 5, none, none⟩ : WatchedEvent)] "s1" "e1"
        = (true, [(⟨"s1", "e1", 5, none, none⟩ : WatchedEvent)])) ∧
    (([(⟨"s1", "e1", 5, none, none⟩ : WatchedEvent)].filter (pairWhere "s2" "e2")) = [] →
      unmark_event_watched [(⟨"s1", "e1", 5, none, none⟩ : WatchedEvent)] "s2" "e2"
        = (true, [(⟨"s1", "e1", 5, none, none⟩ : WatchedEvent)])) ∧
    watchInvariant (applyToggles 7
      [(true, "s1", "e1"), (true, "s2", "e1"), (false, "s1", "e1"), (false, "s1", "e1")]
      [(⟨"s1", "e1", 5, none, none⟩ : WatchedEvent)]) := by
  have h1 := C6_watch_toggle_idempotent 7
    [(⟨"s1", "e1", 5, none, none⟩ : WatchedEvent)] "s1" "e1"
    [(true, "s1", "e1"), (true, "s2", "e1"), (false, "s1", "e1"), (false, "s1", "e1")]
    (watchInvariant_singleton _)
  have h2 := C6_watch_toggle_idempotent 7
    [(⟨"s1", "e1", 5, none, none⟩ : WatchedEvent)] "s2" "e2" []
    (watchInvariant_singleton _)
  exact ⟨h1.1, h2.2.1, h1.2.2⟩

/-! ## C7 -/

lemma filter_erase_eq_nil {α} [DecidableEq α] (l : List α) (p : α → Bool) (a : α)
    (h : l.filter p = [a]) : (l.erase a).filter p = [] := by
  induction l with
  | nil => simp
  | cons x t ih =>
    by_cases hxa : x = a
    · subst hxa
      rw [List.erase_cons_head]
      have hpa : p x = true := by
        have hx : x ∈ (x :: t).filter p := by
          rw [h]
          exact List.mem_singleton_self x
        exact (List.mem_filter.mp hx).2
      rw [List.filter_cons, if_pos hpa] at h
      injection h
    · rw [List.erase_cons_tail]
      · rw [List.filter_cons]
        by_cases hpx : p x = true
        · rw [List.filter_cons, if_pos hpx] at h
          exfalso
          apply hxa
          injection h with h1 h2
        · rw [if_neg hpx]
          rw [List.filter_cons, if_neg hpx] at h
          exact ih h
      · simp [hxa]

/-- C7: assuming the two storage invariants `create_session` maintains —
stored session ids are nonempty (`secrets.token_urlsafe(32)`) and the primary
key is unique — `is_valid_session` returns `False` exactly when the session is
missing or `utcnow()` exceeds `created_at + 30 days` (`last_active` plays no
role), and when it returns `False` because of expiry the row has been deleted
from storage by the validity check. -/
theorem C7_session_validity_and_lazy_cleanup (now : Nat)
    (sessions : List UserSession) (sid : String)
    (hids : ∀ s ∈ sessions, s.session_id ≠ "")
    (hpk : (sessions.filter (fun s => s.session_id == sid)).length ≤ 1) :
    ((is_valid_session now sessions sid).1 = false ↔
      (sessions.filter (fun s => s.session_id == sid) = [] ∨
        ∃ s ∈ sessions, s.session_id = sid ∧ s.created_at + session_lifetime < now)) ∧
    ((∃ s ∈ sessions, s.session_id = sid ∧ s.created_at + session_lifetime < now) →
      ((is_valid_session now sessions sid).2.filter
        (fun s => s.session_id == sid)) = []) := by
  cases hfil : sessions.filter (fun s => s.session_id == sid) with
  | nil =>
    have hvalid : is_valid_session now sessions sid = (false, sessions) := by
      unfold is_valid_session get_session
      rw [hfil]
      by_cases hsid : sid = ""
      · rw [if_pos hsid]
      · rw [if_neg hsid]
        rfl
    constructor
    · rw [hvalid]
      exact ⟨fun _ => .inl rfl, fun _ => rfl⟩
    · rintro ⟨s, hs, hsid', _⟩
      exfalso
      have : s ∈ sessions.filter (fun s => s.session_id == sid) :=
        List.mem_filter.mpr ⟨hs, by simp [hsid']⟩
      rw [hfil] at this
      cases this
  | cons x xs =>
    cases xs with
    | nil =>
      have hx : x ∈ sessions ∧ (x.session_id == sid) = true := by
        have : x ∈ sessions.filter (fun s => s.session_id == sid) := by
          rw [hfil]
          exact List.mem_singleton_self x
        exact List.mem_filter.mp this
      have hxid : x.session_id = sid := by
        simpa using hx.2
      have hsid_ne : sid ≠ "" := fun h => hids x hx.1 (hxid.trans h)
      have huniq : ∀ s ∈ sessions, s.session_id = sid → s = x := by
        intro s hs hsid'
        have hmem : s ∈ sessions.filter (fun s => s.session_id == sid) :=
          List.mem_filter.mpr ⟨hs, by simp [hsid']⟩
        rw [hfil] at hmem
        simpa using hmem
      have hss : (sessions.map (fun t =>
          if t.session_id == sid then { t with last_active := now } else t)).filter
            (fun s => s.session_id == sid)
          = [{ x with last_active := now }] := by
        rw [List.filter_map]
        have hcong : sessions.filter ((fun s : UserSession => s.session_id == sid) ∘
            (fun t => if t.session_id == sid then { t with last_active := now } else t))
            = sessions.filter (fun s => s.session_id == sid) := by
          apply List.filter_congr
          intro t _
          simp only [Function.comp_apply]
          by_cases ht : (t.session_id == sid) = true
          · rw [if_pos ht]
          · rw [if_neg ht]
        rw [hcong, hfil, List.map_cons, if_pos hx.2]
        rfl
      by_cases hexp : x.created_at + session_lifetime < now
      · have hvalid : is_valid_session now sessions sid
            = (false, cleanup_expired_session (sessions.map (fun t =>
                if t.session_id == sid then { t with last_active := now } else t)) sid) := by
          unfold is_valid_session get_session
          rw [hfil, if_neg hsid_ne]
          show (if x.created_at + session_lifetime < now then
              (false, cleanup_expired_session (sessions.map (fun t =>
                if t.session_id == sid then { t with last_active := now } else t)) sid)
            else (true, sessions.map (fun t =>
              if t.session_id == sid then { t with last_active := now } else t))) = _
          rw [if_pos hexp]
        have hclean : cleanup_expired_session (sessions.map (fun t =>
            if t.session_id == sid then { t with last_active := now } else t)) sid
            = (sessions.map (fun t =>
                if t.session_id == sid then { t with last_active := now } else t)).erase
                { x with last_active := now } := by
          unfold cleanup_expired_session
          rw [hss]
          rfl
        constructor
        · rw [hvalid]
          exact ⟨fun _ => .inr ⟨x, hx.1, hxid, hexp⟩, fun _ => rfl⟩
        · intro _
          rw [hvalid]
          show (cleanup_expired_session _ sid).filter (fun s => s.session_id == sid) = []
          rw [hclean]
          exact filter_erase_eq_nil _ _ _ hss
      · have hvalid : is_valid_session now sessions sid
            = (true, sessions.map (fun t =>
                if t.session_id == sid then { t with last_active := now } else t)) := by
          unfold is_valid_session get_session
          rw [hfil, if_neg hsid_ne]
          show (if x.created_at + session_lifetime < now then
              (false, cleanup_expired_session (sessions.map (fun t =>
                if t.session_id == sid then { t with last_active := now } else t)) sid)
            else (true, sessions.map (fun t =>
              if t.session_id == sid then { t with last_active := now } else t))) = _
          rw [if_neg hexp]
        constructor
        · rw [hvalid]
          constructor
          · intro h
            cases h
          · rintro (h | ⟨s, hs, hsid', hsexp⟩)
            · simp at h
            · exact absurd ((huniq s hs hsid') ▸ hsexp) hexp
        · rintro ⟨s, hs, hsid', hsexp⟩
          exact absurd ((huniq s hs hsid') ▸ hsexp) hexp
    | cons y ys =>
      exfalso
      rw [hfil] at hpk
      simp at hpk

/-- A concrete expired session row. -/
def staleSession : UserSession :=
  { session_id := "sess-old"
    created_at := 0
    last_active := 0
    preferences := []
    location := PrefValue.str "Online" }

/-- C7 witness: validating the stale session just after its lifetime reports
it invalid and leaves no row with its id. -/
theorem C7_session_validity_and_lazy_cleanup_witness :
    ((is_valid_session (session_lifetime + 1) [staleSession] "sess-old").1 = false ↔
      ([staleSession].filter (fun s => s.session_id == "sess-old") = [] ∨
        ∃ s ∈ [staleSession], s.session_id = "sess-old" ∧
          s.created_at + session_lifetime < session_lifetime + 1)) ∧
    ((∃ s ∈ [staleSession], s.session_id = "sess-old" ∧
        s.created_at + session_lifetime < session_lifetime + 1) →
      ((is_valid_session (session_lifetime + 1) [staleSession] "sess-old").2.filter
        (fun s => s.session_id == "sess-old")) = []) :=
  C7_session_validity_and_lazy_cleanup (session_lifetime + 1) [staleSession]
    "sess-old" (by decide) (by decide)

/-! ## C9 -/

lemma dictGet_dictSet (m : PrefMap) (k : String) (v : PrefValue) (k' : String) :
    dictGet (dictSet m k v) k' = if k' = k then some v else dictGet m k' := by
  unfold dictSet dictGet
  by_cases hany : (m.any (fun p => p.1 == k)) = true
  · rw [if_pos hany, List.find?_map]
    by_cases hk : k' = k
    · subst hk
      have hpt : ((fun p : String × PrefValue => p.1 == k') ∘
          (fun p => if p.1 == k' then (k', v) else p)) = (fun q => q.1 == k') := by
        funext q
        simp only [Function.comp_apply]
        by_cases hq : (q.1 == k') = true
        · rw [if_pos hq]
          simp [hq]
        · rw [if_neg hq]
      rw [hpt]
      cases hfind : m.find? (fun q => q.1 == k') with
      | none =>
        exfalso
        rcases List.any_eq_true.mp hany with ⟨q, hq, hq'⟩
        exact (List.find?_eq_none.mp hfind) q hq hq'
      | some q0 =>
        have hq0 := List.find?_some hfind
        rw [if_pos rfl]
        have hqk : q0.1 = k' := by simpa using hq0
        simp [hqk]
    · have hpt : ((fun p : String × PrefValue => p.1 == k') ∘
          (fun p => if p.1 == k then (k, v) else p)) = (fun q => q.1 == k') := by
        funext q
        simp only [Function.comp_apply]
        by_cases hq : (q.1 == k) = true
        · rw [if_pos hq]
          have hq' : q.1 = k := by simpa using hq
          have h1 : (k == k') = false := by
            simp
            intro hkk
            exact hk (hkk.symm)
          have h2 : (q.1 == k') = false := by
            simp [hq']
            intro hkk
            exact hk (hkk.symm)
          simp [h1, h2]
        · rw [if_neg hq]
      rw [hpt, if_neg hk]
      cases hfind : m.find? (fun q => q.1 == k') with
      | none => rfl
      | some q0 =>
        have hq0 := List.find?_some hfind
        have hq0' : ¬(q0.1 = k) := by
          have hqk : q0.1 = k' := by simpa using hq0
          rw [hqk]
          intro hkk
          exact hk hkk
        simp [hq0']
  · rw [if_neg hany, List.find?_append]
    have hnone : ∀ q ∈ m, ¬((q.1 == k) = true) := by
      intro q hq hq'
      exact hany (List.any_eq_true.mpr ⟨q, hq, hq'⟩)
    by_cases hk : k' = k
    · subst hk
      have hmn : m.find? (fun p => p.1 == k') = none :=
        List.find?_eq_none.mpr hnone
      rw [hmn, if_pos rfl]
      simp
    · have hsingle : ([(k, v)].find? (fun p => p.1 == k')) = none := by
        apply List.find?_eq_none.mpr
        intro q hq
        have : q = (k, v) := by simpa using hq
        subst this
        simp
        intro hkk
        exact hk hkk.symm
      rw [hsingle, if_neg hk]
      cases m.find? (fun p => p.1 == k') with
      | none => rfl
      | some q0 => rfl

lemma dictGet_cons_ne (kv : String × PrefValue) (u : PrefMap) (k : String)
    (h : (kv.1 == k) = false) : dictGet (kv :: u) k = dictGet u k := by
  unfold dictGet
  rw [List.find?_cons_of_neg]
  simp [h]

lemma dictGet_cons_self (kv : String × PrefValue) (u : PrefMap) :
    dictGet (kv :: u) kv.1 = some kv.2 := by
  unfold dictGet
  rw [List.find?_cons_of_pos]
  · rfl
  · simp

lemma dictGet_dictUpdate (m u : PrefMap) (hnd : (u.map Prod.fst).Nodup)
    (k : String) :
    dictGet (dictUpdate m u) k
      = match dictGet u k with
        | some v => some v
        | none => dictGet m k := by
  induction u generalizing m with
  | nil => simp [dictUpdate, dictGet]
  | cons kv u ih =>
    have hndc := List.nodup_cons.mp (by simpa using hnd :
      (kv.1 :: u.map Prod.fst).Nodup)
    have hstep : dictUpdate m (kv :: u) = dictUpdate (dictSet m kv.1 kv.2) u := rfl
    rw [hstep, ih _ hndc.2]
    by_cases hk : k = kv.1
    · subst hk
      have hu : dictGet u kv.1 = none := by
        unfold dictGet
        rw [List.find?_eq_none.mpr ?_]
        · rfl
        · intro q hq hq'
          have hqk : q.1 = kv.1 := by simpa using hq'
          exact hndc.1 (hqk ▸ List.mem_map_of_mem Prod.fst hq)
      rw [hu, dictGet_dictSet, if_pos rfl, dictGet_cons_self]
    · have hne : (kv.1 == k) = false := by
        simp
        intro hkk
        exact hk hkk.symm
      rw [dictGet_cons_ne kv u k hne]
      cases hugk : dictGet u k with
      | some v => rfl
      | none =>
        rw [dictGet_dictSet, if_neg hk]

lemma filter_key_map (sessions : List UserSession) (sid : String)
    (f : UserSession → UserSession) (hf : ∀ t, (f t).session_id = t.session_id)
    (x : UserSession)
    (hfil : sessions.filter (fun t => t.session_id == sid) = [x]) :
    (sessions.map (fun t => if t.session_id == sid then f t else t)).filter
        (fun t => t.session_id == sid) = [f x] := by
  rw [List.filter_map]
  have hcong : sessions.filter ((fun t : UserSession => t.session_id == sid) ∘
      (fun t => if t.session_id == sid then f t else t))
      = sessions.filter (fun t => t.session_id == sid) := by
    apply List.filter_congr
    intro t _
    simp only [Function.comp_apply]
    by_cases ht : (t.session_id == sid) = true
    · rw [if_pos ht, hf t]
    · rw [if_neg ht]
  rw [hcong, hfil, List.map_cons]
  have hx : (x.session_id == sid) = true := by
    have : x ∈ sessions.filter (fun t => t.session_id == sid) := by
      rw [hfil]
      exact List.mem_singleton_self x
    exact (List.mem_filter.mp this).2
  rw [if_pos hx]
  rfl

lemma update_prefs_found (now : Nat) (sessions : List UserSession) (sid : String)
    (prefs : PrefMap) (s : UserSession)
    (hfil : sessions.filter (fun t => t.session_id == sid) = [s]) :
    update_session_preferences now sessions sid prefs
      = (true, sessions.map (fun t =>
          if t.session_id == sid then mergedSession now prefs t else t)) ∧
    (update_session_preferences now sessions sid prefs).2.filter
        (fun t => t.session_id == sid) = [mergedSession now prefs s] := by
  have heq : update_session_preferences now sessions sid prefs
      = (true, sessions.map (fun t =>
          if t.session_id == sid then mergedSession now prefs t else t)) := by
    unfold update_session_preferences
    rw [hfil]
    rfl
  refine ⟨heq, ?_⟩
  rw [heq]
  exact filter_key_map sessions sid (mergedSession now prefs) (fun t => rfl) s hfil

/-- A concrete live session row. -/
def liveSession : UserSession :=
  { session_id := "sess-live"
    created_at := 100
    last_active := 100
    preferences := [("platform", PrefValue.str "luma")]
    location := PrefValue.str "Online" }

/-- The row actually stored for `liveSession` after the claim's two-call
scenario: location and `last_active` updated, preferences untouched. -/
def persistedAfterScenario : UserSession :=
  { liveSession with location := PrefValue.str "Berlin", last_active := 300 }

/-- C9: the claim (matching spec sections 4.4 and 8) asserts the shallow merge
reaches storage, so that sequential calls with `{"theme": "light"}` then
`{"location": "Berlin"}` leave both keys set in the stored preferences.  The
merge is indeed computed in memory (first conjunct), but the in-place
`dict.update` followed by reassigning the same object is invisible to
SQLAlchemy's change detection on the plain JSON column, so it is never
written: after both calls the stored row keeps its original preferences —
no `theme` key, no `location` key — and only the `location` column and
`last_active` were persisted. -/
theorem C9_merged_preferences_never_persisted :
    dictGet (dictUpdate liveSession.preferences
        [("theme", PrefValue.str "light")]) "theme"
      = some (PrefValue.str "light") ∧
    (update_session_preferences 300
        (update_session_preferences 200 [liveSession] "sess-live"
          [("theme", PrefValue.str "light")]).2 "sess-live"
        [("location", PrefValue.str "Berlin")]).2
      = [persistedAfterScenario] ∧
    persistedAfterScenario.preferences = liveSession.preferences ∧
    dictGet persistedAfterScenario.preferences "theme" = none ∧
    dictGet persistedAfterScenario.preferences "location" = none ∧
    persistedAfterScenario.location = PrefValue.str "Berlin" := by
  refine ⟨by decide, ?_, by decide, by decide, by decide, by decide⟩
  rfl

end EventsScanner
